import Mathlib

/-!
# Verification of `TimeUsageTracker` (src/tabpfn/model/time_tracker.py)

Shallow embedding of the `TimeUsageTracker` class.  The three instance
attributes become the fields of a structure; the Python dicts
`active_segments` and `_timers` are modelled as association lists with
unique keys (insertion preserves the position of an existing key, as a
Python dict does), and `completed_segments` is a plain list of
(label, duration) pairs.  Wall-clock instants returned by `time.time()`
are passed explicitly as a `now : ℚ` argument to each operation.
`start` and `stop`, which can raise `RuntimeError`, return
`Except String`; `reset` and `total_time` are total.

A `threading.Timer` is modelled by the data that the code captures when
scheduling it: the label and the start time passed as `args`.  The timer
map `_timers` keeps one entry per label, as in the code.
-/

namespace TimeTracker

/-- Lookup in an association list, mirroring `d[k]` / `k in d`. -/
def dlookup {α : Type} (m : List (String × α)) (k : String) : Option α :=
  match m with
  | [] => none
  | (k', v) :: rest => if k' = k then some v else dlookup rest k

/-- Insertion `d[k] = v`: updates in place if the key exists (a Python
dict keeps the key's position), otherwise appends. -/
def dinsert {α : Type} (m : List (String × α)) (k : String) (v : α) :
    List (String × α) :=
  match m with
  | [] => [(k, v)]
  | (k', v') :: rest =>
      if k' = k then (k, v) :: rest else (k', v') :: dinsert rest k v

/-- Removal `d.pop(k)` (the value side of `pop` is read separately). -/
def derase {α : Type} (m : List (String × α)) (k : String) :
    List (String × α) :=
  match m with
  | [] => []
  | (k', v') :: rest =>
      if k' = k then rest else (k', v') :: derase rest k

/-- The data captured by `threading.Timer(TIME_WARNING_CPU,
self._warn_if_over_limit, args=(label, start_time))`. -/
structure Timer where
  label : String
  start_time : ℚ
deriving DecidableEq, Repr

/-- The state of a `TimeUsageTracker` instance. -/
structure TimeUsageTracker where
  active_segments : List (String × ℚ)
  completed_segments : List (String × ℚ)
  timers : List (String × Timer)
deriving DecidableEq, Repr

/-- `TimeUsageTracker.__init__`: all three containers empty. -/
def init : TimeUsageTracker :=
  { active_segments := [], completed_segments := [], timers := [] }

/-- `_warn_if_over_limit(label, start_time)`: returns whether the
warning is emitted.  The guard is `label in self.active_segments and
self.active_segments[label] == start_time`; the method mutates nothing. -/
def warn_if_over_limit (t : TimeUsageTracker) (label : String)
    (start_time : ℚ) : Bool :=
  match dlookup t.active_segments label with
  | some s => decide (s = start_time)
  | none => false

/-- `start(label)` at instant `now`: raises if the label is active,
otherwise records the start time and installs a timer carrying
`(label, start_time)`. -/
def start (t : TimeUsageTracker) (label : String) (now : ℚ) :
    Except String TimeUsageTracker :=
  if (dlookup t.active_segments label).isSome then
    .error ("Segment '" ++ label ++ "' is already active.")
  else
    .ok { active_segments := dinsert t.active_segments label now,
          completed_segments := t.completed_segments,
          timers := dinsert t.timers label ⟨label, now⟩ }

/-- `stop(label)` at instant `now`: raises if the label is not active,
otherwise pops it, cancels and removes its timer (the pop is guarded by
`if label in self._timers`, and `derase` on a missing key is the
identity), and appends `(label, now - start_time)`. -/
def stop (t : TimeUsageTracker) (label : String) (now : ℚ) :
    Except String TimeUsageTracker :=
  match dlookup t.active_segments label with
  | none => .error ("No active segment found with label '" ++ label ++ "'.")
  | some start_time =>
      .ok { active_segments := derase t.active_segments label,
            completed_segments :=
              t.completed_segments ++ [(label, now - start_time)],
            timers := derase t.timers label }

/-- `reset(label)` at instant `now`: if the label is active, cancels the
old timer, re-stamps the start time, and installs a fresh timer; if not,
does nothing.  Never raises. -/
def reset (t : TimeUsageTracker) (label : String) (now : ℚ) :
    TimeUsageTracker :=
  if (dlookup t.active_segments label).isSome then
    { active_segments := dinsert t.active_segments label now,
      completed_segments := t.completed_segments,
      timers := dinsert t.timers label ⟨label, now⟩ }
  else t

/-- `total_time(labels)`: sums durations over `completed_segments`,
optionally filtered by `seg in labels`.  Reads only. -/
def total_time (t : TimeUsageTracker) (labels : Option (List String)) : ℚ :=
  match labels with
  | none => (t.completed_segments.map Prod.snd).sum
  | some ls =>
      ((t.completed_segments.filter (fun p => p.1 ∈ ls)).map Prod.snd).sum

/-- One public call in a trace.  `total` carries its argument so a trace
can interleave reads with mutations. -/
inductive Op where
  | start (label : String) (now : ℚ)
  | stop (label : String) (now : ℚ)
  | reset (label : String) (now : ℚ)
  | total (labels : Option (List String))
deriving Repr

/-- The state after one call.  A `RuntimeError` propagates to the
caller before any field of the instance has been assigned, so the state
after a failing call is the state before it. -/
def step (t : TimeUsageTracker) (op : Op) : TimeUsageTracker :=
  match op with
  | .start l now =>
      match start t l now with
      | .ok t' => t'
      | .error _ => t
  | .stop l now =>
      match stop t l now with
      | .ok t' => t'
      | .error _ => t
  | .reset l now => reset t l now
  | .total _ => t

/-- The state after a sequence of calls. -/
def run (t : TimeUsageTracker) (ops : List Op) : TimeUsageTracker :=
  ops.foldl step t

/-- The keys of an association list are pairwise distinct, as they are
in a Python dict. -/
def KeysNodup {α : Type} (m : List (String × α)) : Prop :=
  (m.map Prod.fst).Nodup

/-- A label has a pending timer iff it is active (the invariant stated
for the pending-timer map). -/
def TimerInv (t : TimeUsageTracker) : Prop :=
  ∀ label, (dlookup t.timers label).isSome ↔
    (dlookup t.active_segments label).isSome

/-- The full state invariant: both dict models have distinct keys and
the timer map mirrors the active map. -/
def Inv (t : TimeUsageTracker) : Prop :=
  KeysNodup t.active_segments ∧ KeysNodup t.timers ∧ TimerInv t

lemma dlookup_dinsert {α : Type} (m : List (String × α)) (k : String)
    (v : α) (x : String) :
    dlookup (dinsert m k v) x = if k = x then some v else dlookup m x := by
  induction m with
  | nil =>
      by_cases hx : k = x <;> simp [dinsert, dlookup, hx]
  | cons p rest ih =>
      obtain ⟨k', v'⟩ := p
      by_cases hk : k' = k
      · subst hk
        by_cases hx : k' = x <;> simp [dinsert, dlookup, hx]
      · by_cases hx : k' = x
        · subst hx
          have hkx : ¬ k = k' := fun h => hk h.symm
          simp [dinsert, dlookup, hk, hkx]
        · simp [dinsert, dlookup, hk, hx, ih]

lemma dlookup_derase_ne {α : Type} (m : List (String × α)) (k x : String)
    (hx : x ≠ k) :
    dlookup (derase m k) x = dlookup m x := by
  induction m with
  | nil => simp [derase]
  | cons p rest ih =>
      obtain ⟨k', v'⟩ := p
      by_cases hk : k' = k
      · subst hk
        have hne : ¬ k' = x := fun h => hx (h.symm)
        simp [derase, dlookup, hne]
      · by_cases hxx : k' = x
        · subst hxx
          simp [derase, dlookup, hk, hx]
        · simp [derase, dlookup, hk, hxx, ih]

lemma dlookup_isSome_iff_mem {α : Type} (m : List (String × α)) (k : String) :
    (dlookup m k).isSome ↔ k ∈ m.map Prod.fst := by
  induction m with
  | nil => simp [dlookup]
  | cons p rest ih =>
      obtain ⟨k', v'⟩ := p
      by_cases hk : k' = k
      · subst hk
        simp [dlookup]
      · have hkx : ¬ k = k' := fun h => hk h.symm
        simp [dlookup, hk, hkx, ih]

lemma dlookup_derase_self {α : Type} (m : List (String × α)) (k : String)
    (h : KeysNodup m) :
    dlookup (derase m k) k = none := by
  induction m with
  | nil => simp [derase, dlookup]
  | cons p rest ih =>
      obtain ⟨k', v'⟩ := p
      have hrest : KeysNodup rest := (List.nodup_cons.mp h).2
      by_cases hk : k' = k
      · subst hk
        have hnot : k' ∉ rest.map Prod.fst := (List.nodup_cons.mp h).1
        have := (dlookup_isSome_iff_mem rest k').not
        simp [derase]
        cases hv : dlookup rest k' with
        | none => rfl
        | some v =>
            exact absurd ((dlookup_isSome_iff_mem rest k').mp (by simp [hv]))
              hnot
      · simp [derase, dlookup, hk, ih hrest]

lemma derase_keys_sublist {α : Type} (m : List (String × α)) (k : String) :
    ((derase m k).map Prod.fst).Sublist (m.map Prod.fst) := by
  induction m with
  | nil => simp [derase]
  | cons p rest ih =>
      obtain ⟨k', v'⟩ := p
      by_cases hk : k' = k
      · simp only [derase, hk, if_pos rfl, List.map_cons]
        exact (List.sublist_cons_self _ _)
      · simpa [derase, hk] using ih.cons₂ k'

lemma mem_keys_dinsert {α : Type} (m : List (String × α)) (k : String)
    (v : α) (x : String) :
    x ∈ (dinsert m k v).map Prod.fst ↔ x = k ∨ x ∈ m.map Prod.fst := by
  induction m with
  | nil => simp [dinsert]
  | cons p rest ih =>
      obtain ⟨k', v'⟩ := p
      by_cases hk : k' = k
      · subst hk
        simp [dinsert]
      · simp [dinsert, hk, ih]
        tauto

lemma keysNodup_dinsert {α : Type} (m : List (String × α)) (k : String)
    (v : α) (h : KeysNodup m) : KeysNodup (dinsert m k v) := by
  induction m with
  | nil => simp [dinsert, KeysNodup]
  | cons p rest ih =>
      obtain ⟨k', v'⟩ := p
      obtain ⟨hnot, hrest⟩ := List.nodup_cons.mp h
      by_cases hk : k' = k
      · subst hk
        simp only [KeysNodup, dinsert, if_pos rfl, List.map_cons]
        exact List.nodup_cons.mpr ⟨hnot, hrest⟩
      · simp only [KeysNodup, dinsert, if_neg hk, List.map_cons]
        refine List.nodup_cons.mpr ⟨?_, ih hrest⟩
        intro hmem
        rcases (mem_keys_dinsert rest k v k').mp hmem with h1 | h2
        · exact hk h1
        · exact hnot h2

lemma keysNodup_derase {α : Type} (m : List (String × α)) (k : String)
    (h : KeysNodup m) : KeysNodup (derase m k) :=
  (derase_keys_sublist m k).nodup h

lemma total_time_eq_of_completed {t t' : TimeUsageTracker}
    (h : t'.completed_segments = t.completed_segments)
    (q : Option (List String)) : total_time t' q = total_time t q := by
  cases q <;> simp [total_time, h]

lemma inv_init : Inv init :=
  ⟨List.nodup_nil, List.nodup_nil, fun _ => Iff.rfl⟩

lemma inv_step (t : TimeUsageTracker) (op : Op) (h : Inv t) :
    Inv (step t op) := by
  obtain ⟨ha, ht, hiv⟩ := h
  cases op with
  | start l now =>
      cases hd : dlookup t.active_segments l with
      | some s => simp only [step, start, hd, Option.isSome_some, if_true]
                  exact ⟨ha, ht, hiv⟩
      | none =>
          simp only [step, start, hd, Option.isSome_none, Bool.false_eq_true,
            if_false]
          refine ⟨keysNodup_dinsert _ _ _ ha, keysNodup_dinsert _ _ _ ht, ?_⟩
          intro x
          by_cases hx : l = x <;>
            simp [dlookup_dinsert, hx, hiv x]
  | stop l now =>
      cases hd : dlookup t.active_segments l with
      | none => simp only [step, stop, hd]; exact ⟨ha, ht, hiv⟩
      | some s =>
          simp only [step, stop, hd]
          refine ⟨keysNodup_derase _ _ ha, keysNodup_derase _ _ ht, ?_⟩
          intro x
          by_cases hx : x = l
          · subst hx
            simp [dlookup_derase_self _ _ ha, dlookup_derase_self _ _ ht]
          · rw [dlookup_derase_ne _ _ _ hx, dlookup_derase_ne _ _ _ hx]
            exact hiv x
  | reset l now =>
      cases hd : dlookup t.active_segments l with
      | none => simp only [step, reset, hd, Option.isSome_none,
                  Bool.false_eq_true, if_false]
                exact ⟨ha, ht, hiv⟩
      | some s =>
          simp only [step, reset, hd, Option.isSome_some, if_true]
          refine ⟨keysNodup_dinsert _ _ _ ha, keysNodup_dinsert _ _ _ ht, ?_⟩
          intro x
          by_cases hx : l = x <;>
            simp [dlookup_dinsert, hx, hiv x]
  | total q => exact ⟨ha, ht, hiv⟩

lemma inv_run (ops : List Op) (t : TimeUsageTracker) (h : Inv t) :
    Inv (run t ops) := by
  induction ops generalizing t with
  | nil => exact h
  | cons op rest ih => exact ih (step t op) (inv_step t op h)

lemma filter_mem_sum (l : List (String × ℚ)) (ls : List String) :
    ((l.filter (fun p => p.1 ∈ ls)).map Prod.snd).sum =
      (l.map (fun p => if p.1 ∈ ls then p.2 else 0)).sum := by
  induction l with
  | nil => simp
  | cons p rest ih =>
      by_cases hp : p.1 ∈ ls <;> simp [List.filter_cons, hp, ih]

/-- C1: total_time with no labels sums the durations of all completed
records; total_time with a label list sums exactly the durations of the
completed records whose label is in the list (each other record
contributes zero); a successful start leaves every total_time result
unchanged, so active segments contribute nothing; and after completing
segments a, b, a with durations d1, d2, d3 (interleaved b inside the
first a), the records are exactly those three and
total_time (some [a]) = d1 + d3 while total_time none = d1 + d2 + d3. -/
theorem c1_total_time_sums :
    (∀ (t : TimeUsageTracker) (ls : List String),
        total_time t (some ls) =
          (t.completed_segments.map
            (fun p => if p.1 ∈ ls then p.2 else 0)).sum ∧
        total_time t none = (t.completed_segments.map Prod.snd).sum) ∧
    (∀ (t : TimeUsageTracker) (label : String) (now : ℚ)
        (t' : TimeUsageTracker), start t label now = Except.ok t' →
        ∀ q, total_time t' q = total_time t q) ∧
    (∀ ta tb d1 d2 ta' d3 : ℚ, ∃ t : TimeUsageTracker,
        run init [Op.start "a" ta, Op.start "b" tb, Op.stop "a" (ta + d1),
            Op.stop "b" (tb + d2), Op.start "a" ta',
            Op.stop "a" (ta' + d3)] = t ∧
        t.completed_segments = [("a", d1), ("b", d2), ("a", d3)] ∧
        total_time t (some ["a"]) = d1 + d3 ∧
        total_time t none = d1 + d2 + d3) := by
  refine ⟨?_, ?_, ?_⟩
  · intro t ls
    exact ⟨filter_mem_sum t.completed_segments ls, rfl⟩
  · intro t label now t' h q
    cases hd : dlookup t.active_segments label with
    | some s => simp [start, hd] at h
    | none =>
        simp only [start, hd, Option.isSome_none, Bool.false_eq_true,
          if_false, Except.ok.injEq] at h
        exact total_time_eq_of_completed (by rw [← h]) q
  · intro ta tb d1 d2 ta' d3
    refine ⟨_, rfl, ?_, ?_, ?_⟩
    · simp [run, step, start, stop, init, dlookup, dinsert, derase,
        total_time, List.filter_cons]
    · simp [run, step, start, stop, init, dlookup, dinsert, derase,
        total_time, List.filter_cons]
    · simp [run, step, start, stop, init, dlookup, dinsert, derase,
        total_time, List.filter_cons]
      ring

theorem c1_witness :
    total_time
      { active_segments := [("x", 0)], completed_segments := [],
        timers := [("x", ⟨"x", 0⟩)] } none = total_time init none :=
  c1_total_time_sums.2.1 init "x" 0 _ rfl none

/-- C2: stopping a label that is not active (never started or already
stopped) fails with the "No active segment" RuntimeError message, which
names the offending label. -/
theorem c2_stop_inactive_errors (t : TimeUsageTracker) (label : String)
    (now : ℚ) (h : dlookup t.active_segments label = none) :
    stop t label now =
      Except.error
        ("No active segment found with label '" ++ label ++ "'.") := by
  simp [stop, h]

theorem c2_witness :
    stop init "x" 0 =
      Except.error
        ("No active segment found with label '" ++ "x" ++ "'.") :=
  c2_stop_inactive_errors init "x" 0 rfl

/-- C3: a second start of the same label with no intervening stop fails
with the "already active" RuntimeError message naming the label. -/
theorem c3_double_start_errors (t t' : TimeUsageTracker) (label : String)
    (now now' : ℚ) (h : start t label now = Except.ok t') :
    start t' label now' =
      Except.error ("Segment '" ++ label ++ "' is already active.") := by
  cases hd : dlookup t.active_segments label with
  | some s => simp [start, hd] at h
  | none =>
      simp only [start, hd, Option.isSome_none, Bool.false_eq_true,
        if_false, Except.ok.injEq] at h
      rw [← h]
      simp [start, dlookup_dinsert]

theorem c3_witness :
    start
      { active_segments := [("a", 0)], completed_segments := [],
        timers := [("a", ⟨"a", 0⟩)] } "a" 1 =
      Except.error ("Segment '" ++ "a" ++ "' is already active.") :=
  c3_double_start_errors init _ "a" 0 1 rfl

/-- C4: resetting an active label appends nothing to the completed
records, re-stamps its start time to the reset instant, and a subsequent
stop records the duration measured from the reset point. -/
theorem c4_reset_active (t : TimeUsageTracker) (label : String) (now : ℚ)
    (h : (dlookup t.active_segments label).isSome) :
    (reset t label now).completed_segments = t.completed_segments ∧
    dlookup (reset t label now).active_segments label = some now ∧
    (∀ now', ∃ t', stop (reset t label now) label now' = Except.ok t' ∧
      t'.completed_segments =
        t.completed_segments ++ [(label, now' - now)]) := by
  have hr : reset t label now =
      { active_segments := dinsert t.active_segments label now,
        completed_segments := t.completed_segments,
        timers := dinsert t.timers label ⟨label, now⟩ } := by
    simp [reset, h]
  rw [hr]
  refine ⟨rfl, by simp [dlookup_dinsert], ?_⟩
  intro now'
  refine ⟨{ active_segments := derase (dinsert t.active_segments label now)
              label,
            completed_segments :=
              t.completed_segments ++ [(label, now' - now)],
            timers := derase (dinsert t.timers label ⟨label, now⟩) label },
    ?_, rfl⟩
  simp [stop, dlookup_dinsert]

theorem c4_witness :
    (reset
        { active_segments := [("a", 0)], completed_segments := [],
          timers := [("a", ⟨"a", 0⟩)] } "a" 5).completed_segments =
      ([] : List (String × ℚ)) :=
  (c4_reset_active
    { active_segments := [("a", 0)], completed_segments := [],
      timers := [("a", ⟨"a", 0⟩)] } "a" 5 rfl).1

/-- C5: the timer callback warns exactly when the label is still active
with the very start time captured at scheduling; hence it never warns
after the segment was stopped (the label left the active map), and a
stale timer never warns about a later incarnation whose start time
differs. -/
theorem c5_warn_guard :
    (∀ (t : TimeUsageTracker) (label : String) (s : ℚ),
        warn_if_over_limit t label s = true ↔
          dlookup t.active_segments label = some s) ∧
    (∀ (t : TimeUsageTracker) (label : String) (now : ℚ)
        (t' : TimeUsageTracker), KeysNodup t.active_segments →
        stop t label now = Except.ok t' →
        ∀ s, warn_if_over_limit t' label s = false) ∧
    (∀ (t : TimeUsageTracker) (label : String) (s s' : ℚ),
        dlookup t.active_segments label = some s' → s' ≠ s →
        warn_if_over_limit t label s = false) := by
  refine ⟨?_, ?_, ?_⟩
  · intro t label s
    cases hd : dlookup t.active_segments label with
    | some v => simp [warn_if_over_limit, hd]
    | none => simp [warn_if_over_limit, hd]
  · intro t label now t' hnd h s
    cases hd : dlookup t.active_segments label with
    | none => simp [stop, hd] at h
    | some v =>
        simp only [stop, hd, Except.ok.injEq] at h
        have hnone : dlookup t'.active_segments label = none := by
          rw [← h]
          exact dlookup_derase_self _ _ hnd
        simp [warn_if_over_limit, hnone]
  · intro t label s s' hd hne
    simp [warn_if_over_limit, hd, hne]

theorem c5_witness :
    warn_if_over_limit
      { active_segments := [("a", 1)], completed_segments := [],
        timers := [("a", ⟨"a", 1⟩)] } "a" 2 = false :=
  c5_warn_guard.2.2
    { active_segments := [("a", 1)], completed_segments := [],
      timers := [("a", ⟨"a", 1⟩)] } "a" 2 1 rfl (by norm_num)

/-- C6: from the initial state, after any sequence of public calls a
label has a pending timer iff it is active; and a single call preserves
the full invariant (distinct keys in both maps plus the timer-active
correspondence) from any state satisfying it. -/
theorem c6_timer_invariant :
    (∀ ops : List Op, TimerInv (run init ops)) ∧
    (∀ (t : TimeUsageTracker) (op : Op), Inv t → Inv (step t op)) :=
  ⟨fun ops => (inv_run ops init inv_init).2.2, inv_step⟩

theorem c6_witness : Inv (step init (Op.start "a" 0)) :=
  c6_timer_invariant.2 init (Op.start "a" 0)
    ⟨List.nodup_nil, List.nodup_nil, fun _ => Iff.rfl⟩

/-- C7: resetting a label that is not active leaves the tracker state
exactly as it was, and hence every subsequent total_time result is
unchanged; reset never raises (it is a total function in the model). -/
theorem c7_reset_inactive_noop (t : TimeUsageTracker) (label : String)
    (now : ℚ) (h : dlookup t.active_segments label = none) :
    reset t label now = t ∧
    ∀ q, total_time (reset t label now) q = total_time t q := by
  have hr : reset t label now = t := by simp [reset, h]
  exact ⟨hr, fun q => by rw [hr]⟩

theorem c7_witness : reset init "x" 3 = init :=
  (c7_reset_inactive_noop init "x" 3 rfl).1

/-- C8: total_time is a pure read: as a trace step it leaves the state
untouched, and a repeated call returns the same value. -/
theorem c8_total_time_pure (t : TimeUsageTracker)
    (q : Option (List String)) :
    step t (Op.total q) = t ∧
    total_time (step t (Op.total q)) q = total_time t q :=
  ⟨rfl, rfl⟩

/-- C9: failing calls are atomic: when start or stop raises, the state
after the call is exactly the state before it (the RuntimeError is
raised before any attribute is mutated). -/
theorem c9_errors_atomic (t : TimeUsageTracker) (label : String)
    (now : ℚ) :
    (∀ e, start t label now = Except.error e →
        step t (Op.start label now) = t) ∧
    (∀ e, stop t label now = Except.error e →
        step t (Op.stop label now) = t) := by
  constructor <;> intro e h <;> simp [step, h]

theorem c9_witness : step init (Op.stop "x" 0) = init :=
  (c9_errors_atomic init "x" 0).2
    ("No active segment found with label '" ++ "x" ++ "'.") rfl

end TimeTracker
